import Mathlib

/-!
Verification development for the `nitropdftool` drawings app.

This file shallowly embeds the CSV import service
(`src/drawings/services/csv_importer.py`, `import_assets_from_csv`) and the
upload validators (`src/drawings/validators.py`, `PDFFileValidator` and
`ImageFileValidator`) as executable Lean definitions, and proves properties
of them.

Modelling conventions:
- Python `float` parsing is embedded by `pyFloat?`, an executable
  implementation of the grammar accepted by the `float()` builtin (optional
  sign; `inf`/`infinity`/`nan` case-insensitively; decimal mantissa with
  optional fraction and exponent; underscores allowed between digits).
  Finite values are carried exactly as rationals: no claim below depends on
  binary64 rounding, only on parse success and value provenance.
- Python `dict` construction and lookup are embedded over association
  lists (`dictInsert` / `dictGet`): inserting an existing key updates the
  value in place, keeping the key's original position.
- The database touched by the importer (asset types, one project's assets,
  and the import batches) is an explicit `DB` record threaded through the code;
  Django's `transaction.atomic` block is reflected by the importer's type:
  a process-level failure returns `.error` carrying no database, and
  `importCsvRun` shows the caller keeps the unchanged database.
- File contents are byte lists (`List ℕ`, each entry < 256 at use sites).
-/

namespace NitroPdf

/-! ## Python float parsing (`float(x_str)` in `csv_importer.py` lines 100-101) -/

/-- Result of a successful Python `float()` call: a NaN, a signed infinity,
or a finite value (represented exactly as a rational). -/
inductive PyFloat where
  | nan : PyFloat
  | inf (neg : Bool) : PyFloat
  | finite (val : ℚ) : PyFloat
deriving DecidableEq, Repr

/-- Python numeric-literal rule for underscores: every `_` must sit between
two digits. -/
def underscoreOk : List Char → Bool
  | [] => true
  | '_' :: _ => false
  | [_] => true
  | a :: '_' :: c :: rest => a.isDigit && c.isDigit && underscoreOk (c :: rest)
  | _ :: rest => underscoreOk rest

/-- Numeric value of a digit string read left to right. -/
def digitsToNat (l : List Char) : ℕ :=
  l.foldl (fun a c => a * 10 + (c.toNat - 48)) 0

/-- All characters are decimal digits. -/
def allDigits (l : List Char) : Bool := l.all Char.isDigit

/-- Parse the exponent part of a float literal (after the `e`/`E`):
an optional sign followed by a non-empty digit string. -/
def parseExpPart : List Char → Option ℤ
  | [] => none
  | '+' :: rest =>
      if rest.isEmpty || !allDigits rest then none else some ((digitsToNat rest : ℤ))
  | '-' :: rest =>
      if rest.isEmpty || !allDigits rest then none else some (-(digitsToNat rest : ℤ))
  | l =>
      if !allDigits l then none else some ((digitsToNat l : ℤ))

/-- Parse an unsigned mantissa: digits, optionally with one decimal point;
at least one digit must be present overall. -/
def parseMantissa (l : List Char) : Option ℚ :=
  let ip := l.takeWhile (fun c => c != '.')
  let rest := l.dropWhile (fun c => c != '.')
  match rest with
  | [] =>
      if l.isEmpty || !allDigits l then none else some ((digitsToNat l : ℚ))
  | _ :: fp =>
      if !allDigits ip || !allDigits fp then none
      else if ip.isEmpty && fp.isEmpty then none
      else some ((digitsToNat ip : ℚ) + (digitsToNat fp : ℚ) / (10 : ℚ) ^ fp.length)

/-- Parse an unsigned numeric float literal (mantissa with optional
exponent). -/
def parseNumericQ (l : List Char) : Option ℚ :=
  let m := l.takeWhile (fun c => c != 'e' && c != 'E')
  let rest := l.dropWhile (fun c => c != 'e' && c != 'E')
  match rest with
  | [] => parseMantissa l
  | _ :: ex =>
      match parseMantissa m, parseExpPart ex with
      | some q, some e => some (q * (10 : ℚ) ^ e)
      | _, _ => none

/-- The grammar accepted by Python's `float()` builtin on an
already-stripped string, as characters. -/
def pyFloatOfChars (l : List Char) : Option PyFloat :=
  if !underscoreOk l then none else
  let l' := l.filter (fun c => c != '_')
  let signBody : Bool × List Char :=
    match l' with
    | '+' :: rest => (false, rest)
    | '-' :: rest => (true, rest)
    | _ => (false, l')
  let neg := signBody.1
  let body := signBody.2
  let low := body.map Char.toLower
  if low = ['i', 'n', 'f'] ∨ low = ['i', 'n', 'f', 'i', 'n', 'i', 't', 'y'] then
    some (.inf neg)
  else if low = ['n', 'a', 'n'] then
    some .nan
  else
    match parseNumericQ body with
    | some q => some (.finite (if neg then -q else q))
    | none => none

/-- Python `float(s)` on a string: `some` result on success, `none` when
`float()` would raise `ValueError`. -/
def pyFloat? (s : String) : Option PyFloat := pyFloatOfChars s.data

/-- Python whitespace as `str.strip()` removes it (ASCII subset). -/
def isSpaceChar (c : Char) : Bool :=
  c = ' ' || c = '\t' || c = '\n' || c = '\x0d' || c = '\x0b' || c = '\x0c'

/-- Python `str.strip()` (the importer strips every extracted cell). -/
def pyStrip (s : String) : String :=
  ⟨((s.data.dropWhile isSpaceChar).reverse.dropWhile isSpaceChar).reverse⟩

/-- Python `str.lower()`, character by character. -/
def strLower (s : String) : String := ⟨s.data.map Char.toLower⟩

/-! ## Python dict embedding (association lists with in-place update) -/

/-- Python `d[k] = v`: update the value in place if the key is present
(keeping its position), otherwise append the new pair. -/
def dictInsert {α : Type} (l : List (String × α)) (k : String) (v : α) :
    List (String × α) :=
  if l.any (fun p => p.1 = k) then
    l.map (fun p => if p.1 = k then (k, v) else p)
  else
    l ++ [(k, v)]

/-- Python `d.get(k)` / `k in d` style lookup. -/
def dictGet {α : Type} (l : List (String × α)) (k : String) : Option α :=
  (l.find? (fun p => p.1 = k)).map (fun p => p.2)

/-! ## CSV rows as `csv.DictReader` builds them

A data row is the header zipped with the row's cells; a missing cell
(short row) maps its header field to Python `None` (`Option.none` here),
`DictReader`'s default `restval`. Duplicate header names collapse as dict
assignment does. -/

/-- One parsed data row: field name to cell value; `none` is Python `None`. -/
abbrev Row := List (String × Option String)

/-- Build the `DictReader` dict for one data line. -/
def mkRow (header : List String) (cells : List String) : Row :=
  (header.enum.map (fun ic => (ic.2, cells.get? ic.1))).foldl
    (fun d kv => dictInsert d kv.1 kv.2) []

/-- Python `row.get(col, '')`: the empty string when the field is absent,
the stored value (possibly `None`) when present. -/
def rowGetD (row : Row) (k : String) : Option String :=
  match List.find? (fun p => p.1 = k) row with
  | some p => p.2
  | none => some ""

/-! ## Importer data model (`drawings` app records touched by the importer) -/

/-- An `Asset` row as written by the importer: the upsert's natural key
`assetId`, the resolved `AssetType` name, the optional display name, the
parsed coordinates, the unmapped-column metadata, and the owning batch's
index in `DB.batches`. -/
structure AssetRec where
  assetId : String
  assetType : String
  name : String
  x : PyFloat
  y : PyFloat
  metadata : List (String × String)
  importBatch : ℕ
deriving DecidableEq, Repr

/-- An `ImportBatch` row: filename and the committed asset count. -/
structure BatchRec where
  filename : String
  assetCount : ℕ
deriving DecidableEq, Repr

/-- The database slice the importer touches: all `AssetType` names in
creation order, one project's assets, and that project's import batches
(batch ids are list indices). -/
structure DB where
  assetTypes : List String
  assets : List AssetRec
  batches : List BatchRec
deriving DecidableEq, Repr

/-- The importer's per-call asset-type cache: lower-cased name to the
record's actual name (`asset_types_cache` in the source). -/
abbrev Cache := List (String × String)

/-- The cache built at the start of an import from the existing
`AssetType` rows (`{at.name.lower(): at for at in AssetType.objects.all()}`). -/
def initCache (assetTypes : List String) : Cache :=
  assetTypes.foldl (fun c n => dictInsert c (strLower n) n) []

/-- Per-row result summary entry (`results['assets']` items). -/
structure SummaryEntry where
  assetId : String
  created : Bool
  x : PyFloat
  y : PyFloat
deriving DecidableEq, Repr

/-- The reason recorded for a failed row, carrying exactly the data the
source interpolates into the error string. -/
inductive RowReason where
  | missingAssetId (col : String) : RowReason
  | missingAssetType (col : String) : RowReason
  | invalidCoords (colX xStr colY yStr : String) : RowReason
  | internal (msg : String) : RowReason
deriving DecidableEq, Repr

/-- One entry of `results['errors']`: the user-facing row number (header
offset applied) and the reason. -/
structure RowError where
  rowNum : ℕ
  reason : RowReason
deriving DecidableEq, Repr

/-- Render an error entry to the exact string the source appends. -/
def RowError.render : RowError → String
  | ⟨n, .missingAssetId col⟩ =>
      "Row " ++ toString n ++ ": Missing asset_id (column \x27" ++ col ++ "\x27)"
  | ⟨n, .missingAssetType col⟩ =>
      "Row " ++ toString n ++ ": Missing asset_type (column \x27" ++ col ++ "\x27)"
  | ⟨n, .invalidCoords cx xs cy ys⟩ =>
      "Row " ++ toString n ++ ": Invalid coordinates (" ++ cx ++ "=" ++ xs ++
        ", " ++ cy ++ "=" ++ ys ++ ")"
  | ⟨n, .internal msg⟩ => "Row " ++ toString n ++ ": " ++ msg

/-- The `str(e)` text of the `AttributeError` raised when `.strip()` is
called on a `None` cell. -/
def noneStripMsg : String := "\x27NoneType\x27 object has no attribute \x27strip\x27"

/-- The importer's running result (`results` dict in the source). -/
structure ImportResults where
  created : ℕ
  updated : ℕ
  errors : List RowError
  assets : List SummaryEntry
deriving DecidableEq, Repr

/-- The `results` dict as initialised at the top of the import. -/
def emptyResults : ImportResults := ⟨0, 0, [], []⟩

/-- Append one row error to the running results. -/
def addErr (res : ImportResults) (n : ℕ) (r : RowReason) : ImportResults :=
  { res with errors := res.errors ++ [⟨n, r⟩] }

/-- Process-level failures of the import (raised, not collected). -/
inductive ImportError where
  | missingColumns (missing : List (String × String)) : ImportError
  | noHeader : ImportError
deriving DecidableEq, Repr

/-! ## Column-mapping resolution -/

/-- `DEFAULT_MAPPING` from the source. -/
def defaultMapping : List (String × String) :=
  [("asset_id", "asset_id"), ("asset_type", "asset_type"),
   ("x", "x"), ("y", "y"), ("name", "name")]

/-- `{**DEFAULT_MAPPING, **(column_mapping or {})}`. -/
def mergeMapping (overrides : List (String × String)) : List (String × String) :=
  overrides.foldl (fun m kv => dictInsert m kv.1 kv.2) defaultMapping

/-- The required roles of `import_assets_from_csv` (source line 45). -/
def requiredRoles : List String := ["asset_id", "asset_type", "x", "y"]

/-- The `(role, mapped column)` pairs rejected by the header validation
(source lines 46-51): the role's column is falsy or absent from the header. -/
def missingCols (mapping : List (String × String)) (header : List String) :
    List (String × String) :=
  requiredRoles.filterMap (fun role =>
    let col := (dictGet mapping role).getD ""
    if col = "" ∨ ¬ header.contains col then some (role, col) else none)

/-- The per-call context derived from the merged mapping: the four
required role columns, the optional name column, and `mapped_columns`
(the set of all mapping values, excluded from metadata). -/
structure Ctx where
  colId : String
  colType : String
  colX : String
  colY : String
  colName : String
  mappedCols : List String
deriving Repr

/-- Build the context from a merged mapping (source lines 55, 67-71). -/
def mkCtx (mapping : List (String × String)) : Ctx :=
  ⟨(dictGet mapping "asset_id").getD "", (dictGet mapping "asset_type").getD "",
   (dictGet mapping "x").getD "", (dictGet mapping "y").getD "",
   (dictGet mapping "name").getD "", mapping.map (fun p => p.2)⟩

/-! ## Per-row processing -/

/-- The four extracted and stripped fields of a row (source lines 85-88);
`none` when one of the raw cells is Python `None`, in which case `.strip()`
raises `AttributeError`. -/
def rowFields (ctx : Ctx) (row : Row) : Option (String × String × String × String) :=
  match rowGetD row ctx.colId, rowGetD row ctx.colType,
        rowGetD row ctx.colX, rowGetD row ctx.colY with
  | some a, some b, some c, some d => some (pyStrip a, pyStrip b, pyStrip c, pyStrip d)
  | _, _, _, _ => none

/-- The stripped asset id of a row (defaulting to `""` when extraction
would raise); the upsert key. -/
def rowId (ctx : Ctx) (row : Row) : String :=
  ((rowFields ctx row).map (fun f => f.1)).getD ""

/-- The optional name field (source line 122):
`row.get(col_name, '').strip() if col_name else ''`; `none` models the
`AttributeError` on a `None` cell. -/
def nameField (ctx : Ctx) (row : Row) : Option String :=
  if ctx.colName = "" then some "" else (rowGetD row ctx.colName).map pyStrip

/-- Metadata from columns not mapped to any role, skipping falsy values
(source lines 116-119). -/
def rowMetadata (ctx : Ctx) (row : Row) : List (String × String) :=
  row.filterMap (fun kv =>
    match kv.2 with
    | some v => if ctx.mappedCols.contains kv.1 ∨ v = "" then none else some (kv.1, v)
    | none => none)

/-- Case-insensitive asset-type resolution (source lines 106-113): look the
lower-cased name up in the cache; on a miss create the type and cache it. -/
def resolveType (db : DB) (cache : Cache) (typeName : String) :
    DB × Cache × String :=
  let key := strLower typeName
  match List.find? (fun p => p.1 = key) cache with
  | some p => (db, cache, p.2)
  | none =>
      ({ db with assetTypes := db.assetTypes ++ [typeName] },
       List.append cache [(key, typeName)], typeName)

/-- Is an asset with this id already present (`update_or_create` hit)? -/
def hasAsset (assets : List AssetRec) (aid : String) : Bool :=
  assets.any (fun a => a.assetId = aid)

/-- `Asset.objects.update_or_create(project=..., asset_id=aid, defaults=...)`:
update the matching row in place, or append a new one. Returns the new
asset list and Django's `created` flag. -/
def updateOrCreate (assets : List AssetRec) (aid : String) (rec : AssetRec) :
    List AssetRec × Bool :=
  if hasAsset assets aid then
    (assets.map (fun a => if a.assetId = aid then rec else a), false)
  else
    (assets ++ [rec], true)

/-- The state-independent outcome of one row's validation: `none` when the
row reaches the upsert, otherwise the reason recorded in `errors`.
Mirrors the checks of source lines 85-122 in order, including the
`except Exception` catch-all for `None` cells. -/
def rowError? (ctx : Ctx) (row : Row) : Option RowReason :=
  match rowFields ctx row with
  | none => some (.internal noneStripMsg)
  | some (aid, aty, xs, ys) =>
      if aid = "" then some (.missingAssetId ctx.colId)
      else if aty = "" then some (.missingAssetType ctx.colType)
      else
        match pyFloat? xs, pyFloat? ys with
        | some _, some _ =>
            match nameField ctx row with
            | none => some (.internal noneStripMsg)
            | some _ => none
        | _, _ => some (.invalidCoords ctx.colX xs ctx.colY ys)

/-- One iteration of the row loop (source lines 82-151): thread the
database, the asset-type cache and the running results through one data
row numbered `n`. Every failure path appends one error and continues. -/
def processRow (ctx : Ctx) (batchId : ℕ) (st : DB × Cache × ImportResults)
    (n : ℕ) (row : Row) : DB × Cache × ImportResults :=
  let db := st.1
  let cache := st.2.1
  let res := st.2.2
  match rowFields ctx row with
  | none => (db, cache, addErr res n (.internal noneStripMsg))
  | some (aid, aty, xs, ys) =>
      if aid = "" then (db, cache, addErr res n (.missingAssetId ctx.colId))
      else if aty = "" then (db, cache, addErr res n (.missingAssetType ctx.colType))
      else
        match pyFloat? xs, pyFloat? ys with
        | some x, some y =>
            let r := resolveType db cache aty
            let metadata := rowMetadata ctx row
            match nameField ctx row with
            | none => (r.1, r.2.1, addErr res n (.internal noneStripMsg))
            | some nm =>
                let arec : AssetRec := ⟨aid, r.2.2, nm, x, y, metadata, batchId⟩
                let u := updateOrCreate r.1.assets aid arec
                let res' :=
                  if u.2 then { res with created := res.created + 1 }
                  else { res with updated := res.updated + 1 }
                ({ r.1 with assets := u.1 }, r.2.1,
                 { res' with assets := res'.assets ++ [⟨aid, u.2, x, y⟩] })
        | _, _ => (db, cache, addErr res n (.invalidCoords ctx.colX xs ctx.colY ys))

/-- The row loop `for row_num, row in enumerate(reader, start=2)`:
process the remaining data lines, numbering them from `n`. -/
def processRows (ctx : Ctx) (batchId : ℕ) (header : List String) :
    ℕ → List (List String) → DB × Cache × ImportResults → DB × Cache × ImportResults
  | _, [], st => st
  | n, cells :: rest, st =>
      processRows ctx batchId header (n + 1) rest
        (processRow ctx batchId st n (mkRow header cells))

/-! ## The whole import call -/

/-- An uploaded CSV file: its `name` attribute and its parsed lines (the
first line is the header `DictReader` consumes, the rest are data rows). -/
structure CsvFile where
  name : String
  lines : List (List String)
deriving Repr

/-- The data rows of a file (everything after the header). -/
def CsvFile.rows (f : CsvFile) : List (List String) := f.lines.tail

/-- `filename or getattr(csv_file, 'name', 'unknown.csv')` (source line 75):
the caller's filename when truthy, else the file object's `name`. -/
def batchFilename (file : CsvFile) : Option String → String
  | some s => if s = "" then file.name else s
  | none => file.name

/-- `import_assets_from_csv(project, csv_file, column_mapping, filename)`.
Returns the results dict and the post-transaction database on success; a
process-level error (`ValueError` on missing columns, or the `TypeError`
from `col not in None` on a header-less file) carries no database: the
transaction never started, nothing is persisted. -/
def importCsv (db : DB) (file : CsvFile) (columnMapping : List (String × String))
    (filename : Option String) : Except ImportError (ImportResults × DB) :=
  match file.lines with
  | [] => .error .noHeader
  | header :: dataRows =>
      let mapping := mergeMapping columnMapping
      let missing := missingCols mapping header
      if missing = [] then
        let ctx := mkCtx mapping
        let bf := batchFilename file filename
        let batchId := db.batches.length
        let db1 : DB := { db with batches := db.batches ++ [⟨bf, 0⟩] }
        let out := processRows ctx batchId header 2 dataRows
          (db1, initCache db.assetTypes, emptyResults)
        let res := out.2.2
        let db3 : DB :=
          { out.1 with
            batches := out.1.batches.set batchId ⟨bf, res.created + res.updated⟩ }
        .ok (res, db3)
      else
        .error (.missingColumns missing)

/-- The database after a call of the importer: on a process-level error
the surrounding transaction wrote nothing, so the caller's database is
unchanged. -/
def importCsvRun (db : DB) (file : CsvFile) (columnMapping : List (String × String))
    (filename : Option String) : DB :=
  match importCsv db file columnMapping filename with
  | .ok (_, db') => db'
  | .error _ => db

/-! ## Upload validators (`src/drawings/validators.py`) -/

/-- An uploaded file as the validators see it: its `name`, its `size`, and
its content bytes. -/
structure UploadedFile where
  name : String
  size : ℕ
  content : List ℕ
deriving Repr

/-- The `ValidationError` raised, by which check failed. -/
inductive VError where
  | sizeExceeded : VError
  | badExtension : VError
  | badContent : VError
  | badMime : VError
deriving DecidableEq, Repr

/-- A model of `magic.from_buffer(header, mime=True)` when python-magic
can be loaded: `none` for the whole oracle means `HAS_MAGIC` is false;
inside, `f header = none` means the call raised (swallowed by the
validators). -/
abbrev MagicOracle := Option (List ℕ → Option String)

/-- `PDFFileValidator.max_size` default: 50 MB. -/
def pdfMaxSize : ℕ := 50 * 1024 * 1024

/-- `ImageFileValidator.max_size` default: 5 MB. -/
def imageMaxSize : ℕ := 5 * 1024 * 1024

/-- PDF magic bytes `%PDF-`. -/
def pdfMagic : List ℕ := [0x25, 0x50, 0x44, 0x46, 0x2D]

/-- `PDFFileValidator.__call__`: size ceiling, `.pdf` extension, `%PDF-`
header, then the optional python-magic mime check. -/
def pdfValidate (magic : MagicOracle) (maxSize : ℕ) (file : UploadedFile) :
    Except VError Unit :=
  if file.size > maxSize then .error .sizeExceeded
  else if ¬ (".pdf".data.isSuffixOf (strLower file.name).data) then .error .badExtension
  else
    let header := file.content.take 2048
    if ¬ (pdfMagic.isPrefixOf header) then .error .badContent
    else
      match magic with
      | some f =>
          match f header with
          | some mime => if mime = "application/pdf" then .ok () else .error .badMime
          | none => .ok ()
      | none => .ok ()

/-- `ImageFileValidator.allowed_extensions`. -/
def allowedImageExtensions : List String := [".png", ".jpg", ".jpeg", ".gif", ".webp"]

/-- `ImageFileValidator.allowed_mime_types`. -/
def allowedImageMimes : List String :=
  ["image/png", "image/jpeg", "image/gif", "image/webp"]

/-- `'.' + file.name.lower().split('.')[-1] if '.' in file.name else ''`. -/
def fileExt (name : String) : String :=
  if name.data.contains '.' then
    ⟨'.' :: ((strLower name).data.reverse.takeWhile (fun c => c != '.')).reverse⟩
  else ""

/-- The basic header checks used when python-magic is unavailable or
raised: only PNG, JPEG and GIF signatures are accepted. -/
def imageFallback (header : List ℕ) : Except VError Unit :=
  let isPng := List.isPrefixOf [0x89, 0x50, 0x4E, 0x47] header
  let isJpeg := List.isPrefixOf [0xFF, 0xD8, 0xFF] header
  let isGif87 := List.isPrefixOf [0x47, 0x49, 0x46, 0x38, 0x37, 0x61] header
  let isGif89 := List.isPrefixOf [0x47, 0x49, 0x46, 0x38, 0x39, 0x61] header
  if isPng || isJpeg || isGif87 || isGif89 then .ok () else .error .badContent

/-- `ImageFileValidator.__call__`: size ceiling, allowed extension, then
the python-magic mime check when available (its success returns early, a
raise falls through), else the basic header fallback. -/
def imageValidate (magic : MagicOracle) (maxSize : ℕ) (file : UploadedFile) :
    Except VError Unit :=
  if file.size > maxSize then .error .sizeExceeded
  else if ¬ allowedImageExtensions.contains (fileExt file.name) then .error .badExtension
  else
    let header := file.content.take 2048
    match magic with
    | some f =>
        match f header with
        | some mime =>
            if allowedImageMimes.contains mime then .ok () else .error .badMime
        | none => imageFallback header
    | none => imageFallback header

/-! ## Specification helpers and step lemmas for the row loop -/

/-- The errors the row loop appends for the given data lines numbered from
`n`, computed row-locally (each failed row contributes its own number and
reason). -/
def rowErrorsFrom (ctx : Ctx) (header : List String) :
    ℕ → List (List String) → List RowError
  | _, [] => []
  | n, cells :: rest =>
      ((rowError? ctx (mkRow header cells)).map (fun e => RowError.mk n e)).toList
        ++ rowErrorsFrom ctx header (n + 1) rest

theorem resolveType_batches (db : DB) (c : Cache) (t : String) :
    (resolveType db c t).1.batches = db.batches := by
  rcases h : List.find? (fun p => p.1 = strLower t) c with _ | p <;>
    simp [resolveType, h]

theorem resolveType_assets (db : DB) (c : Cache) (t : String) :
    (resolveType db c t).1.assets = db.assets := by
  rcases h : List.find? (fun p => p.1 = strLower t) c with _ | p <;>
    simp [resolveType, h]

theorem processRow_batches (ctx : Ctx) (b : ℕ) (db : DB) (c : Cache)
    (res : ImportResults) (n : ℕ) (row : Row) :
    (processRow ctx b (db, c, res) n row).1.batches = db.batches := by
  rcases hf : rowFields ctx row with _ | ⟨aid, aty, xs, ys⟩
  · simp [processRow, hf]
  by_cases ha : aid = ""
  · simp [processRow, hf, ha]
  by_cases ht : aty = ""
  · simp [processRow, hf, ha, ht]
  rcases hx : pyFloat? xs with _ | x
  · simp [processRow, hf, ha, ht, hx]
  rcases hy : pyFloat? ys with _ | y
  · simp [processRow, hf, ha, ht, hx, hy]
  rcases hn : nameField ctx row with _ | nm <;>
    simp [processRow, hf, ha, ht, hx, hy, hn, resolveType_batches, apply_ite]

theorem processRow_errors (ctx : Ctx) (b : ℕ) (db : DB) (c : Cache)
    (res : ImportResults) (n : ℕ) (row : Row) :
    (processRow ctx b (db, c, res) n row).2.2.errors =
      res.errors ++ ((rowError? ctx row).map (fun e => RowError.mk n e)).toList := by
  rcases hf : rowFields ctx row with _ | ⟨aid, aty, xs, ys⟩
  · simp [processRow, rowError?, hf, addErr]
  by_cases ha : aid = ""
  · simp [processRow, rowError?, hf, ha, addErr]
  by_cases ht : aty = ""
  · simp [processRow, rowError?, hf, ha, ht, addErr]
  rcases hx : pyFloat? xs with _ | x
  · simp [processRow, rowError?, hf, ha, ht, hx, addErr]
  rcases hy : pyFloat? ys with _ | y
  · simp [processRow, rowError?, hf, ha, ht, hx, hy, addErr]
  rcases hn : nameField ctx row with _ | nm <;>
    simp [processRow, rowError?, hf, ha, ht, hx, hy, hn, addErr,
      apply_ite (f := ImportResults.errors)]

theorem processRow_counts (ctx : Ctx) (b : ℕ) (db : DB) (c : Cache)
    (res : ImportResults) (n : ℕ) (row : Row) :
    (processRow ctx b (db, c, res) n row).2.2.created
        + (processRow ctx b (db, c, res) n row).2.2.updated =
      res.created + res.updated + (if (rowError? ctx row).isNone then 1 else 0) := by
  rcases hf : rowFields ctx row with _ | ⟨aid, aty, xs, ys⟩
  · simp [processRow, rowError?, hf, addErr]
  by_cases ha : aid = ""
  · simp [processRow, rowError?, hf, ha, addErr]
  by_cases ht : aty = ""
  · simp [processRow, rowError?, hf, ha, ht, addErr]
  rcases hx : pyFloat? xs with _ | x
  · simp [processRow, rowError?, hf, ha, ht, hx, addErr]
  rcases hy : pyFloat? ys with _ | y
  · simp [processRow, rowError?, hf, ha, ht, hx, hy, addErr]
  rcases hn : nameField ctx row with _ | nm
  · simp [processRow, rowError?, hf, ha, ht, hx, hy, hn, addErr]
  · have hne : rowError? ctx row = none := by
      simp [rowError?, hf, ha, ht, hx, hy, hn]
    rw [hne]
    by_cases hu : (updateOrCreate (resolveType db c aty).1.assets aid
        ⟨aid, (resolveType db c aty).2.2, nm, x, y, rowMetadata ctx row, b⟩).2 = true <;>
      simp [processRow, hf, ha, ht, hx, hy, hn, hu] <;> omega

theorem processRow_assets_of_error (ctx : Ctx) (b : ℕ) (db : DB) (c : Cache)
    (res : ImportResults) (n : ℕ) (row : Row)
    (h : (rowError? ctx row).isSome) :
    (processRow ctx b (db, c, res) n row).1.assets = db.assets := by
  rcases hf : rowFields ctx row with _ | ⟨aid, aty, xs, ys⟩
  · simp [processRow, hf]
  by_cases ha : aid = ""
  · simp [processRow, hf, ha]
  by_cases ht : aty = ""
  · simp [processRow, hf, ha, ht]
  rcases hx : pyFloat? xs with _ | x
  · simp [processRow, hf, ha, ht, hx]
  rcases hy : pyFloat? ys with _ | y
  · simp [processRow, hf, ha, ht, hx, hy]
  rcases hn : nameField ctx row with _ | nm
  · simp [processRow, hf, ha, ht, hx, hy, hn, resolveType_assets]
  · exfalso
    simp [rowError?, hf, ha, ht, hx, hy, hn] at h

/-- The main fold lemma for the row loop: the errors list grows by exactly
the row-local errors (numbered from `n`), the created/updated total grows
by the number of valid rows, and the batch table is untouched. -/
theorem processRows_spec (ctx : Ctx) (b : ℕ) (header : List String) :
    ∀ (rows : List (List String)) (n : ℕ) (db : DB) (c : Cache) (res : ImportResults),
      (processRows ctx b header n rows (db, c, res)).2.2.errors
          = res.errors ++ rowErrorsFrom ctx header n rows
        ∧ (processRows ctx b header n rows (db, c, res)).2.2.created
            + (processRows ctx b header n rows (db, c, res)).2.2.updated
          = res.created + res.updated
            + rows.countP (fun cells => (rowError? ctx (mkRow header cells)).isNone)
        ∧ (processRows ctx b header n rows (db, c, res)).1.batches = db.batches := by
  intro rows
  induction rows with
  | nil => intro n db c res; simp [processRows, rowErrorsFrom]
  | cons cells rest ih =>
      intro n db c res
      rcases hP : processRow ctx b (db, c, res) n (mkRow header cells) with ⟨db', c', res'⟩
      have he := processRow_errors ctx b db c res n (mkRow header cells)
      have hc := processRow_counts ctx b db c res n (mkRow header cells)
      have hb := processRow_batches ctx b db c res n (mkRow header cells)
      rw [hP] at he hc hb
      have hrec := ih (n + 1) db' c' res'
      simp only [processRows, hP]
      refine ⟨?_, ?_, ?_⟩
      · rw [hrec.1, he, rowErrorsFrom, List.append_assoc]
      · rw [hrec.2.1, hc, List.countP_cons]
        cases h : rowError? ctx (mkRow header cells) <;> simp [h]
        omega
      · rw [hrec.2.2, hb]

theorem rowErrorsFrom_length (ctx : Ctx) (header : List String) :
    ∀ (rows : List (List String)) (n : ℕ),
      (rowErrorsFrom ctx header n rows).length
        = rows.countP (fun cells => (rowError? ctx (mkRow header cells)).isSome) := by
  intro rows
  induction rows with
  | nil => intro n; simp [rowErrorsFrom]
  | cons cells rest ih =>
      intro n
      rw [rowErrorsFrom, List.countP_cons]
      cases h : rowError? ctx (mkRow header cells) <;> simp [h, ih]

theorem countP_opt {α β : Type} (f : α → Option β) (l : List α) :
    l.countP (fun a => (f a).isNone) + l.countP (fun a => (f a).isSome) = l.length := by
  induction l with
  | nil => simp
  | cons a l ih =>
      rw [List.countP_cons, List.countP_cons]
      cases h : f a <;> simp [h] <;> omega

theorem set_append_last {α : Type} (l : List α) (a b : α) :
    (l ++ [a]).set l.length b = l ++ [b] := by
  induction l with
  | nil => rfl
  | cons x xs ih => simp [List.set, ih]

/-- When every row of a list fails validation, the row loop leaves the
asset table untouched. -/
theorem processRows_assets_of_errors (ctx : Ctx) (b : ℕ) (header : List String) :
    ∀ (rows : List (List String)) (n : ℕ) (db : DB) (c : Cache) (res : ImportResults),
      (∀ cells ∈ rows, (rowError? ctx (mkRow header cells)).isSome) →
      (processRows ctx b header n rows (db, c, res)).1.assets = db.assets := by
  intro rows
  induction rows with
  | nil => intro n db c res _; rfl
  | cons cells rest ih =>
      intro n db c res h
      rcases hP : processRow ctx b (db, c, res) n (mkRow header cells) with ⟨db', c', res'⟩
      have ha := processRow_assets_of_error ctx b db c res n (mkRow header cells)
        (h cells (by simp))
      rw [hP] at ha
      simp only [processRows, hP]
      rw [ih (n + 1) db' c' res' (fun x hx => h x (by simp [hx])), ha]

/-- Inversion of a valid row: it has present cells, a non-empty id and
type, parsing coordinates, and a readable name field; its upsert key is
the stripped id. -/
theorem rowError?_none_elim (ctx : Ctx) (row : Row)
    (h : rowError? ctx row = none) :
    ∃ aid aty xs ys x y nm, rowFields ctx row = some (aid, aty, xs, ys)
      ∧ aid ≠ "" ∧ aty ≠ "" ∧ pyFloat? xs = some x ∧ pyFloat? ys = some y
      ∧ nameField ctx row = some nm ∧ rowId ctx row = aid := by
  rcases hf : rowFields ctx row with _ | ⟨aid, aty, xs, ys⟩
  · simp [rowError?, hf] at h
  by_cases ha : aid = ""
  · simp [rowError?, hf, ha] at h
  by_cases ht : aty = ""
  · simp [rowError?, hf, ha, ht] at h
  rcases hx : pyFloat? xs with _ | x
  · simp [rowError?, hf, ha, ht, hx] at h
  rcases hy : pyFloat? ys with _ | y
  · simp [rowError?, hf, ha, ht, hx, hy] at h
  rcases hn : nameField ctx row with _ | nm
  · simp [rowError?, hf, ha, ht, hx, hy, hn] at h
  · exact ⟨aid, aty, xs, ys, x, y, nm, rfl, ha, ht, hx, hy, rfl, by simp [rowId, hf]⟩

/-- The complete effect of a successfully validated row: the asset table
is replaced by the upsert's output, the cache by the type resolution's
output, and the counters and summary grow according to Django's `created`
flag. -/
theorem processRow_success (ctx : Ctx) (b : ℕ) (db : DB) (c : Cache)
    (res : ImportResults) (n : ℕ) (row : Row) (aid aty xs ys nm : String)
    (x y : PyFloat)
    (hf : rowFields ctx row = some (aid, aty, xs, ys)) (ha : aid ≠ "") (ht : aty ≠ "")
    (hx : pyFloat? xs = some x) (hy : pyFloat? ys = some y)
    (hn : nameField ctx row = some nm) :
    processRow ctx b (db, c, res) n row =
      ({ (resolveType db c aty).1 with
          assets := (updateOrCreate db.assets aid
            ⟨aid, (resolveType db c aty).2.2, nm, x, y, rowMetadata ctx row, b⟩).1 },
       (resolveType db c aty).2.1,
       { created := if (updateOrCreate db.assets aid
            ⟨aid, (resolveType db c aty).2.2, nm, x, y, rowMetadata ctx row, b⟩).2
            then res.created + 1 else res.created,
         updated := if (updateOrCreate db.assets aid
            ⟨aid, (resolveType db c aty).2.2, nm, x, y, rowMetadata ctx row, b⟩).2
            then res.updated else res.updated + 1,
         errors := res.errors,
         assets := res.assets ++ [⟨aid, (updateOrCreate db.assets aid
            ⟨aid, (resolveType db c aty).2.2, nm, x, y, rowMetadata ctx row, b⟩).2,
            x, y⟩] }) := by
  have hra : (resolveType db c aty).1.assets = db.assets := resolveType_assets db c aty
  by_cases hu : (updateOrCreate db.assets aid
      ⟨aid, (resolveType db c aty).2.2, nm, x, y, rowMetadata ctx row, b⟩).2 = true
  · simp [processRow, hf, ha, ht, hx, hy, hn, hra, hu]
  · simp [processRow, hf, ha, ht, hx, hy, hn, hra, hu]

/-- Membership reading of `hasAsset`. -/
theorem hasAsset_eq_mem (l : List AssetRec) (aid : String) :
    hasAsset l aid = true ↔ aid ∈ l.map (fun a => a.assetId) := by
  simp only [hasAsset, List.any_eq_true, decide_eq_true_eq, List.mem_map]

/-- `hasAsset` over a one-element extension. -/
theorem hasAsset_append_single (l : List AssetRec) (a : AssetRec) (aid : String) :
    hasAsset (l ++ [a]) aid = (hasAsset l aid || decide (a.assetId = aid)) := by
  simp [hasAsset]

/-- `hasAsset` only looks at the id column. -/
theorem hasAsset_congr_keys (l₁ l₂ : List AssetRec) (aid : String)
    (h : l₁.map (fun a => a.assetId) = l₂.map (fun a => a.assetId)) :
    hasAsset l₁ aid = hasAsset l₂ aid := by
  cases hb : hasAsset l₂ aid
  · cases hb1 : hasAsset l₁ aid
    · rfl
    · have h1 := (hasAsset_eq_mem l₁ aid).mp hb1
      rw [h] at h1
      have h2 := (hasAsset_eq_mem l₂ aid).mpr h1
      rw [hb] at h2
      exact h2.symm
  · exact (hasAsset_eq_mem l₁ aid).mpr (h ▸ (hasAsset_eq_mem l₂ aid).mp hb)

/-- A miss makes `update_or_create` create. -/
theorem updateOrCreate_miss (l : List AssetRec) (aid : String) (a : AssetRec)
    (h : hasAsset l aid = false) :
    updateOrCreate l aid a = (l ++ [a], true) := by
  simp [updateOrCreate, h]

/-- A hit makes `update_or_create` update in place, and the id column is
unchanged when the new record carries the key. -/
theorem updateOrCreate_hit_keys (l : List AssetRec) (aid : String) (a : AssetRec)
    (h : hasAsset l aid = true) (ha : a.assetId = aid) :
    (updateOrCreate l aid a).2 = false
    ∧ (updateOrCreate l aid a).1.map (fun r => r.assetId)
        = l.map (fun r => r.assetId) := by
  refine ⟨by simp [updateOrCreate, h], ?_⟩
  simp only [updateOrCreate, h, if_true]
  rw [List.map_map]
  apply List.map_congr_left
  intro r _
  by_cases hr : r.assetId = aid <;> simp [hr, ha]

/-- Replacing the unique hit in an appended list. -/
theorem map_replace_append (l : List AssetRec) (aid : String) (a b : AssetRec)
    (hl : hasAsset l aid = false) (ha : a.assetId = aid) :
    (l ++ [a]).map (fun r => if r.assetId = aid then b else r) = l ++ [b] := by
  rw [List.map_append]
  have hmem : ∀ r ∈ l, ¬ (r.assetId = aid) := by
    intro r hr heq
    have : hasAsset l aid = true :=
      (hasAsset_eq_mem l aid).mpr (List.mem_map.mpr ⟨r, hr, heq⟩)
    rw [hl] at this
    exact Bool.false_ne_true this
  have h1 : l.map (fun r => if r.assetId = aid then b else r) = l := by
    rw [show l = l.map id from (List.map_id l).symm]
    rw [List.map_map]
    apply List.map_congr_left
    intro r hr
    simp [hmem r (by simpa using hr)]
  rw [h1]
  simp [ha]

/-- The invariant of the asset-type cache: each key is the lower-cased
name of its value. -/
abbrev CacheInv (c : Cache) : Prop := ∀ p ∈ c, p.1 = strLower p.2

theorem dictInsert_cacheInv (c : Cache) (k v : String)
    (h : CacheInv c) (hkv : k = strLower v) : CacheInv (dictInsert c k v) := by
  unfold dictInsert
  split
  · intro p hp
    rcases List.mem_map.mp hp with ⟨q, hq, rfl⟩
    by_cases hqk : q.1 = k
    · simp [hqk, hkv]
    · simp only [hqk, if_false, ite_false]
      exact h q hq
  · intro p hp
    rcases List.mem_append.mp hp with hp | hp
    · exact h p hp
    · rcases List.mem_singleton.mp hp with rfl
      exact hkv

theorem initCache_cacheInv (ats : List String) : CacheInv (initCache ats) := by
  unfold initCache
  suffices hgen : ∀ (l : List String) (c : Cache), CacheInv c →
      CacheInv (l.foldl (fun c n => dictInsert c (strLower n) n) c) by
    exact hgen ats [] (fun p hp => absurd hp (List.not_mem_nil p))
  intro l
  induction l with
  | nil => intro c hc; exact hc
  | cons a l ih =>
      intro c hc
      exact ih (dictInsert c (strLower a) a) (dictInsert_cacheInv c _ a hc rfl)

theorem resolveType_cacheInv (db : DB) (c : Cache) (t : String)
    (h : CacheInv c) : CacheInv (resolveType db c t).2.1 := by
  rcases hfind : List.find? (fun p => p.1 = strLower t) c with _ | p
  · simp only [resolveType, hfind]
    intro q hq
    rcases List.mem_append.mp hq with hq | hq
    · exact h q hq
    · rcases List.mem_singleton.mp hq with rfl
      rfl
  · simp only [resolveType, hfind]
    exact h

/-- Case-insensitive resolution: the resolved type name agrees with the
requested one up to lower-casing. -/
theorem resolveType_lower (db : DB) (c : Cache) (t : String)
    (h : CacheInv c) : strLower (resolveType db c t).2.2 = strLower t := by
  rcases hfind : List.find? (fun p => p.1 = strLower t) c with _ | p
  · simp only [resolveType, hfind]
  · simp only [resolveType, hfind]
    have hmem := List.mem_of_find?_eq_some hfind
    have hpred := List.find?_some hfind
    simp only [decide_eq_true_eq] at hpred
    rw [← h p hmem, hpred]

/-- Component view of a valid row that misses the asset table: one asset
appended, `created` incremented. -/
theorem processRow_new_parts (ctx : Ctx) (b : ℕ) (db : DB) (c : Cache)
    (res : ImportResults) (n : ℕ) (row : Row) (aid aty xs ys nm : String)
    (x y : PyFloat)
    (hf : rowFields ctx row = some (aid, aty, xs, ys)) (ha : aid ≠ "") (ht : aty ≠ "")
    (hx : pyFloat? xs = some x) (hy : pyFloat? ys = some y)
    (hn : nameField ctx row = some nm)
    (hfr : hasAsset db.assets aid = false) :
    (processRow ctx b (db, c, res) n row).1.assets
        = db.assets ++ [⟨aid, (resolveType db c aty).2.2, nm, x, y, rowMetadata ctx row, b⟩]
    ∧ (processRow ctx b (db, c, res) n row).2.2.created = res.created + 1
    ∧ (processRow ctx b (db, c, res) n row).2.2.updated = res.updated
    ∧ (processRow ctx b (db, c, res) n row).2.1 = (resolveType db c aty).2.1 := by
  rw [processRow_success ctx b db c res n row aid aty xs ys nm x y hf ha ht hx hy hn,
    updateOrCreate_miss db.assets aid _ hfr]
  simp

/-- Component view of a valid row that hits the asset table: the id
column is unchanged, `updated` incremented. -/
theorem processRow_update_parts (ctx : Ctx) (b : ℕ) (db : DB) (c : Cache)
    (res : ImportResults) (n : ℕ) (row : Row) (aid aty xs ys nm : String)
    (x y : PyFloat)
    (hf : rowFields ctx row = some (aid, aty, xs, ys)) (ha : aid ≠ "") (ht : aty ≠ "")
    (hx : pyFloat? xs = some x) (hy : pyFloat? ys = some y)
    (hn : nameField ctx row = some nm)
    (hhit : hasAsset db.assets aid = true) :
    (processRow ctx b (db, c, res) n row).1.assets.map (fun r => r.assetId)
        = db.assets.map (fun r => r.assetId)
    ∧ (processRow ctx b (db, c, res) n row).2.2.created = res.created
    ∧ (processRow ctx b (db, c, res) n row).2.2.updated = res.updated + 1 := by
  have hk := updateOrCreate_hit_keys db.assets aid
    ⟨aid, (resolveType db c aty).2.2, nm, x, y, rowMetadata ctx row, b⟩ hhit rfl
  rw [processRow_success ctx b db c res n row aid aty xs ys nm x y hf ha ht hx hy hn]
  simp [hk.1, hk.2]

/-- First import of fresh, pairwise-distinct rows: each row creates, the
id column grows by exactly the rows' ids in file order. -/
theorem processRows_all_new (ctx : Ctx) (b : ℕ) (header : List String) :
    ∀ (rows : List (List String)) (n : ℕ) (db : DB) (c : Cache) (res : ImportResults),
      (∀ cells ∈ rows, rowError? ctx (mkRow header cells) = none) →
      (rows.map (fun cells => rowId ctx (mkRow header cells))).Nodup →
      (∀ cells ∈ rows, hasAsset db.assets (rowId ctx (mkRow header cells)) = false) →
      (processRows ctx b header n rows (db, c, res)).2.2.created = res.created + rows.length
      ∧ (processRows ctx b header n rows (db, c, res)).2.2.updated = res.updated
      ∧ (processRows ctx b header n rows (db, c, res)).1.assets.map (fun a => a.assetId)
          = db.assets.map (fun a => a.assetId)
            ++ rows.map (fun cells => rowId ctx (mkRow header cells)) := by
  intro rows
  induction rows with
  | nil => intro n db c res _ _ _; simp [processRows]
  | cons cells rest ih =>
      intro n db c res hval hnd hfresh
      obtain ⟨aid, aty, xs, ys, x, y, nm, hf, ha, ht, hx, hy, hn, hid⟩ :=
        rowError?_none_elim ctx (mkRow header cells) (hval cells (by simp))
      have hfr : hasAsset db.assets aid = false := by
        rw [← hid]
        exact hfresh cells (by simp)
      rcases hP : processRow ctx b (db, c, res) n (mkRow header cells) with ⟨db', c', res'⟩
      obtain ⟨hassets, hcreated, hupdated, _⟩ := processRow_new_parts ctx b db c res n
        (mkRow header cells) aid aty xs ys nm x y hf ha ht hx hy hn hfr
      rw [hP] at hassets hcreated hupdated
      dsimp only at hassets hcreated hupdated
      rw [List.map_cons, List.nodup_cons] at hnd
      have hkeys : db'.assets.map (fun a => a.assetId)
          = db.assets.map (fun a => a.assetId) ++ [aid] := by
        rw [hassets]
        simp
      have hfresh' : ∀ r ∈ rest, hasAsset db'.assets (rowId ctx (mkRow header r)) = false := by
        intro r hr
        rw [hassets, hasAsset_append_single]
        have h1 : hasAsset db.assets (rowId ctx (mkRow header r)) = false :=
          hfresh r (by simp [hr])
        have h2 : aid ≠ rowId ctx (mkRow header r) := by
          intro heq
          apply hnd.1
          rw [hid, heq]
          exact List.mem_map.mpr ⟨r, hr, rfl⟩
        simp [h1, h2]
      have hrec := ih (n + 1) db' c' res' (fun r hr => hval r (by simp [hr])) hnd.2 hfresh'
      simp only [processRows, hP]
      refine ⟨?_, ?_, ?_⟩
      · rw [hrec.1, hcreated]
        simp [Nat.add_assoc, Nat.add_comm 1 rest.length]
      · rw [hrec.2.1, hupdated]
      · rw [hrec.2.2, hkeys]
        simp [hid]

/-- Re-import over rows already present: each row updates in place, the
id column is unchanged. -/
theorem processRows_all_existing (ctx : Ctx) (b : ℕ) (header : List String) :
    ∀ (rows : List (List String)) (n : ℕ) (db : DB) (c : Cache) (res : ImportResults),
      (∀ cells ∈ rows, rowError? ctx (mkRow header cells) = none) →
      (∀ cells ∈ rows, hasAsset db.assets (rowId ctx (mkRow header cells)) = true) →
      (processRows ctx b header n rows (db, c, res)).2.2.created = res.created
      ∧ (processRows ctx b header n rows (db, c, res)).2.2.updated
          = res.updated + rows.length
      ∧ (processRows ctx b header n rows (db, c, res)).1.assets.map (fun a => a.assetId)
          = db.assets.map (fun a => a.assetId) := by
  intro rows
  induction rows with
  | nil => intro n db c res _ _; simp [processRows]
  | cons cells rest ih =>
      intro n db c res hval hhits
      obtain ⟨aid, aty, xs, ys, x, y, nm, hf, ha, ht, hx, hy, hn, hid⟩ :=
        rowError?_none_elim ctx (mkRow header cells) (hval cells (by simp))
      have hhit : hasAsset db.assets aid = true := by
        rw [← hid]
        exact hhits cells (by simp)
      rcases hP : processRow ctx b (db, c, res) n (mkRow header cells) with ⟨db', c', res'⟩
      obtain ⟨hkeys, hcreated, hupdated⟩ := processRow_update_parts ctx b db c res n
        (mkRow header cells) aid aty xs ys nm x y hf ha ht hx hy hn hhit
      rw [hP] at hkeys hcreated hupdated
      dsimp only at hkeys hcreated hupdated
      have hhits' : ∀ r ∈ rest, hasAsset db'.assets (rowId ctx (mkRow header r)) = true := by
        intro r hr
        rw [hasAsset_congr_keys db'.assets db.assets _ hkeys]
        exact hhits r (by simp [hr])
      have hrec := ih (n + 1) db' c' res' (fun r hr => hval r (by simp [hr])) hhits'
      simp only [processRows, hP]
      refine ⟨?_, ?_, ?_⟩
      · rw [hrec.1, hcreated]
      · rw [hrec.2.1, hupdated]
        simp [Nat.add_assoc, Nat.add_comm 1 rest.length]
      · rw [hrec.2.2, hkeys]

/-- The row-loop output of an import that passed the header check: the
state after folding all data rows from the freshly-created batch. -/
abbrev importState (db : DB) (file : CsvFile) (cm : List (String × String))
    (fn : Option String) (header : List String) (dataRows : List (List String)) :
    DB × Cache × ImportResults :=
  processRows (mkCtx (mergeMapping cm)) db.batches.length header 2 dataRows
    (⟨db.assetTypes, db.assets, db.batches ++ [⟨batchFilename file fn, 0⟩]⟩,
     initCache db.assetTypes, emptyResults)

/-- Canonical success form of the importer once the header check passes. -/
theorem importCsv_eq_ok (db : DB) (file : CsvFile) (cm : List (String × String))
    (fn : Option String) (header : List String) (dataRows : List (List String))
    (hf : file.lines = header :: dataRows)
    (hcols : missingCols (mergeMapping cm) header = []) :
    importCsv db file cm fn = .ok
      ((importState db file cm fn header dataRows).2.2,
       { (importState db file cm fn header dataRows).1 with
         batches := (importState db file cm fn header dataRows).1.batches.set
           db.batches.length
           ⟨batchFilename file fn,
            (importState db file cm fn header dataRows).2.2.created
              + (importState db file cm fn header dataRows).2.2.updated⟩ }) := by
  unfold importCsv importState
  rw [hf]
  dsimp only
  rw [if_pos hcols]

end NitroPdf

namespace NitroPdf

/-! ## Claim theorems -/

/-- C1: whenever some required role among `asset_id`, `asset_type`, `x`,
`y` is mapped to a column absent from the CSV header (or to a falsy
column name), the import fails with the process-level missing-columns
`ValueError` and nothing is persisted: the caller's database — batches and
assets included — is returned unchanged. -/
theorem c1_missing_required_column_rejects_import (db : DB) (file : CsvFile)
    (cm : List (String × String)) (fn : Option String)
    (header : List String) (dataRows : List (List String)) (role : String)
    (hf : file.lines = header :: dataRows)
    (hrole : role ∈ requiredRoles)
    (hcol : (dictGet (mergeMapping cm) role).getD "" = ""
      ∨ header.contains ((dictGet (mergeMapping cm) role).getD "") = false) :
    ∃ missing, (role, (dictGet (mergeMapping cm) role).getD "") ∈ missing
      ∧ importCsv db file cm fn = .error (.missingColumns missing)
      ∧ importCsvRun db file cm fn = db := by
  have hcond : (dictGet (mergeMapping cm) role).getD "" = ""
      ∨ ¬ header.contains ((dictGet (mergeMapping cm) role).getD "") := by
    rcases hcol with h | h
    · exact Or.inl h
    · refine Or.inr ?_
      simp at h
      simp [h]
  have hmem : (role, (dictGet (mergeMapping cm) role).getD "")
      ∈ missingCols (mergeMapping cm) header := by
    unfold missingCols
    refine List.mem_filterMap.mpr ⟨role, hrole, ?_⟩
    dsimp only
    rw [if_pos hcond]
  have hne : missingCols (mergeMapping cm) header ≠ [] := by
    intro h
    rw [h] at hmem
    exact absurd hmem (List.not_mem_nil _)
  have herr : importCsv db file cm fn
      = .error (.missingColumns (missingCols (mergeMapping cm) header)) := by
    unfold importCsv
    rw [hf]
    simp [hne]
  refine ⟨missingCols (mergeMapping cm) header, hmem, herr, ?_⟩
  unfold importCsvRun
  rw [herr]

/-- Witness for C1: the spec's own scenario — header `["only_col"]` with
the default mapping is rejected and the database is untouched. -/
theorem c1_witness :
    ∃ missing, ("asset_id", "asset_id") ∈ missing
      ∧ importCsv ⟨[], [], []⟩ ⟨"w.csv", [["only_col"], ["val"]]⟩ [] none
          = .error (.missingColumns missing)
      ∧ importCsvRun ⟨[], [], []⟩ ⟨"w.csv", [["only_col"], ["val"]]⟩ [] none
          = ⟨[], [], []⟩ :=
  c1_missing_required_column_rejects_import ⟨[], [], []⟩
    ⟨"w.csv", [["only_col"], ["val"]]⟩ [] none ["only_col"] [["val"]] "asset_id"
    rfl (by decide) (by decide)

/-- C2 counterexample: the claim says a row whose `x` parses as NaN is
recorded as an invalid-coordinates error and not persisted; but Python's
`float('nan')` succeeds, so the importer accepts the row — the result has
no errors, `created = 1`, and the asset is stored with a NaN coordinate. -/
theorem c2_counterexample_nan_row_accepted :
    importCsv ⟨[], [], []⟩
        ⟨"f.csv", [["asset_id", "asset_type", "x", "y"], ["A1", "T", "nan", "1"]]⟩ [] none
      = .ok (⟨1, 0, [], [⟨"A1", true, .nan, .finite 1⟩]⟩,
             ⟨["T"], [⟨"A1", "T", "", .nan, .finite 1, [], 0⟩], [⟨"f.csv", 1⟩]⟩) := by
  rfl

/-- C2 (amended): for every data row whose `x` or `y` value does not parse
under Python float syntax — which accepts `nan` and `inf`, so only
genuinely non-numeric text fails — the row loop records an
invalid-coordinates error naming both coordinate columns and their raw
values under the row's number, persists nothing for that row (database and
cache unchanged, counters and summaries unchanged), and the loop goes on
with the next row. -/
theorem c2_unparsable_coordinates_recorded (ctx : Ctx) (b : ℕ) (db : DB) (c : Cache)
    (res : ImportResults) (n : ℕ) (row : Row) (aid aty xs ys : String)
    (hf : rowFields ctx row = some (aid, aty, xs, ys))
    (ha : aid ≠ "") (ht : aty ≠ "")
    (hxy : pyFloat? xs = none ∨ pyFloat? ys = none) :
    processRow ctx b (db, c, res) n row
      = (db, c, addErr res n (.invalidCoords ctx.colX xs ctx.colY ys)) := by
  rcases hxy with hx | hy
  · simp [processRow, hf, ha, ht, hx]
  · rcases hx : pyFloat? xs with _ | x
    · simp [processRow, hf, ha, ht, hx]
    · simp [processRow, hf, ha, ht, hx, hy]

/-- Witness for C2 (amended): a row with `x = "abc"` is recorded as an
invalid-coordinates error and changes nothing else. -/
theorem c2_witness :
    processRow (mkCtx (mergeMapping [])) 0 (⟨[], [], []⟩, ([] : Cache), emptyResults) 2
        (mkRow ["asset_id", "asset_type", "x", "y"] ["A1", "T", "abc", "1"])
      = (⟨[], [], []⟩, ([] : Cache),
         addErr emptyResults 2 (.invalidCoords "x" "abc" "y" "1")) :=
  c2_unparsable_coordinates_recorded (mkCtx (mergeMapping [])) 0 ⟨[], [], []⟩
    ([] : Cache) emptyResults 2
    (mkRow ["asset_id", "asset_type", "x", "y"] ["A1", "T", "abc", "1"])
    "A1" "T" "abc" "1" rfl (by decide) (by decide) (Or.inl rfl)

/-- C3 (code-bug evidence): `import_assets_from_csv` has no
`fixed_asset_type` parameter at all, and the `asset_type` role is always
required: the exact scenario of
`test_fixed_asset_type_skips_column_validation` — header
`[asset_id, x, y]`, mapping for those three roles — is rejected with a
missing-columns error instead of importing one asset of the fixed type. -/
theorem c3_fixed_asset_type_unsupported :
    importCsv ⟨[], [], []⟩ ⟨"f.csv", [["asset_id", "x", "y"], ["F3", "5", "6"]]⟩
        [("asset_id", "asset_id"), ("x", "x"), ("y", "y")] none
      = .error (.missingColumns [("asset_type", "asset_type")]) := by
  rfl

/-- C4: once the header check passes, the import never aborts: it returns
a result whose errors list is exactly the row-local errors of the data
rows numbered from 2 (the first data row is user-facing row 2, every
failing row — including the catch-all internal-failure rows — is recorded
under its own number, in file order), and every data row contributes
exactly one outcome: created, updated, or one error. -/
theorem c4_row_failures_recorded_batch_never_aborts (db : DB) (file : CsvFile)
    (cm : List (String × String)) (fn : Option String)
    (header : List String) (dataRows : List (List String))
    (hf : file.lines = header :: dataRows)
    (hcols : missingCols (mergeMapping cm) header = []) :
    ∃ res db', importCsv db file cm fn = .ok (res, db')
      ∧ res.errors = rowErrorsFrom (mkCtx (mergeMapping cm)) header 2 dataRows
      ∧ res.created + res.updated + res.errors.length = dataRows.length := by
  unfold importCsv
  rw [hf]
  dsimp only
  rw [if_pos hcols]
  refine ⟨_, _, rfl, ?_, ?_⟩
  · have h1 := (processRows_spec (mkCtx (mergeMapping cm)) db.batches.length header
      dataRows 2 ⟨db.assetTypes, db.assets, db.batches ++ [⟨batchFilename file fn, 0⟩]⟩
      (initCache db.assetTypes) emptyResults).1
    rw [h1]
    simp [emptyResults]
  · have h1 := (processRows_spec (mkCtx (mergeMapping cm)) db.batches.length header
      dataRows 2 ⟨db.assetTypes, db.assets, db.batches ++ [⟨batchFilename file fn, 0⟩]⟩
      (initCache db.assetTypes) emptyResults).1
    have h2 := (processRows_spec (mkCtx (mergeMapping cm)) db.batches.length header
      dataRows 2 ⟨db.assetTypes, db.assets, db.batches ++ [⟨batchFilename file fn, 0⟩]⟩
      (initCache db.assetTypes) emptyResults).2.1
    have h3 := rowErrorsFrom_length (mkCtx (mergeMapping cm)) header dataRows 2
    have h4 : dataRows.countP
          (fun cells => (rowError? (mkCtx (mergeMapping cm)) (mkRow header cells)).isNone)
        + dataRows.countP
          (fun cells => (rowError? (mkCtx (mergeMapping cm)) (mkRow header cells)).isSome)
        = dataRows.length :=
      countP_opt (fun cells => rowError? (mkCtx (mergeMapping cm)) (mkRow header cells))
        dataRows
    rw [h1]
    simp only [emptyResults] at h2 ⊢
    simp at h2
    simp [h3]
    omega

/-- Witness for C4: a two-row file with one bad and one good row imports
without aborting; the bad row is recorded as row 3. -/
theorem c4_witness :
    ∃ res db',
      importCsv ⟨[], [], []⟩
          ⟨"w.csv", [["asset_id", "asset_type", "x", "y"],
                     ["A1", "T", "1", "2"], ["", "T", "1", "2"]]⟩ [] none
        = .ok (res, db')
      ∧ res.errors = rowErrorsFrom (mkCtx (mergeMapping []))
          ["asset_id", "asset_type", "x", "y"] 2 [["A1", "T", "1", "2"], ["", "T", "1", "2"]]
      ∧ res.created + res.updated + res.errors.length = 2 :=
  c4_row_failures_recorded_batch_never_aborts ⟨[], [], []⟩
    ⟨"w.csv", [["asset_id", "asset_type", "x", "y"],
               ["A1", "T", "1", "2"], ["", "T", "1", "2"]]⟩ [] none
    ["asset_id", "asset_type", "x", "y"] [["A1", "T", "1", "2"], ["", "T", "1", "2"]]
    rfl (by rfl)

/-- C6: every import call that gets past the header check appends exactly
one batch record, whose committed `asset_count` equals the result's
`created + updated`. -/
theorem c6_batch_count_is_created_plus_updated (db : DB) (file : CsvFile)
    (cm : List (String × String)) (fn : Option String)
    (res : ImportResults) (db' : DB)
    (h : importCsv db file cm fn = .ok (res, db')) :
    db'.batches
      = db.batches ++ [⟨batchFilename file fn, res.created + res.updated⟩] := by
  rcases hf : file.lines with _ | ⟨header, dataRows⟩
  · unfold importCsv at h
    rw [hf] at h
    exact absurd h (by simp)
  · unfold importCsv at h
    rw [hf] at h
    dsimp only at h
    by_cases hc : missingCols (mergeMapping cm) header = []
    · rw [if_pos hc] at h
      injection h with h2
      injection h2 with ha hb
      subst ha hb
      have hbat := (processRows_spec (mkCtx (mergeMapping cm)) db.batches.length header
        dataRows 2 ⟨db.assetTypes, db.assets, db.batches ++ [⟨batchFilename file fn, 0⟩]⟩
        (initCache db.assetTypes) emptyResults).2.2
      show (processRows (mkCtx (mergeMapping cm)) db.batches.length header 2 dataRows
          (⟨db.assetTypes, db.assets, db.batches ++ [⟨batchFilename file fn, 0⟩]⟩,
           initCache db.assetTypes, emptyResults)).1.batches.set db.batches.length _ = _
      rw [hbat]
      exact set_append_last db.batches _ _
    · rw [if_neg hc] at h
      exact absurd h (by simp)

/-- Witness for C6: the concrete one-row import of the C2 counterexample
commits its batch with `asset_count = 1 = created + updated`. -/
theorem c6_witness :
    (⟨["T"], [⟨"A1", "T", "", .nan, .finite 1, [], 0⟩],
      [⟨"f.csv", 1⟩]⟩ : DB).batches
      = ([] : List BatchRec)
        ++ [⟨batchFilename ⟨"f.csv", [["asset_id", "asset_type", "x", "y"],
              ["A1", "T", "nan", "1"]]⟩ none,
            (⟨1, 0, [], [⟨"A1", true, .nan, .finite 1⟩]⟩ : ImportResults).created
              + (⟨1, 0, [], [⟨"A1", true, .nan, .finite 1⟩]⟩ : ImportResults).updated⟩] :=
  c6_batch_count_is_created_plus_updated ⟨[], [], []⟩
    ⟨"f.csv", [["asset_id", "asset_type", "x", "y"], ["A1", "T", "nan", "1"]]⟩ [] none
    ⟨1, 0, [], [⟨"A1", true, .nan, .finite 1⟩]⟩
    ⟨["T"], [⟨"A1", "T", "", .nan, .finite 1, [], 0⟩], [⟨"f.csv", 1⟩]⟩ (by rfl)

/-- C9: when the required columns are present but every data row fails
row-level validation, the import still succeeds at process level: the
batch record is committed with `asset_count = 0`, the counters are zero,
one error is recorded per failed row, and no asset is written. -/
theorem c9_all_rows_failing_still_commits_batch (db : DB) (file : CsvFile)
    (cm : List (String × String)) (fn : Option String)
    (header : List String) (dataRows : List (List String))
    (hf : file.lines = header :: dataRows)
    (hcols : missingCols (mergeMapping cm) header = [])
    (hbad : ∀ cells ∈ dataRows,
      (rowError? (mkCtx (mergeMapping cm)) (mkRow header cells)).isSome) :
    ∃ res db', importCsv db file cm fn = .ok (res, db')
      ∧ res.created = 0 ∧ res.updated = 0
      ∧ res.errors.length = dataRows.length
      ∧ db'.assets = db.assets
      ∧ db'.batches = db.batches ++ [⟨batchFilename file fn, 0⟩] := by
  unfold importCsv
  rw [hf]
  dsimp only
  rw [if_pos hcols]
  have h1 := (processRows_spec (mkCtx (mergeMapping cm)) db.batches.length header
    dataRows 2 ⟨db.assetTypes, db.assets, db.batches ++ [⟨batchFilename file fn, 0⟩]⟩
    (initCache db.assetTypes) emptyResults).1
  have h2 : (processRows (mkCtx (mergeMapping cm)) db.batches.length header 2 dataRows
        (⟨db.assetTypes, db.assets, db.batches ++ [⟨batchFilename file fn, 0⟩]⟩,
         initCache db.assetTypes, emptyResults)).2.2.created
      + (processRows (mkCtx (mergeMapping cm)) db.batches.length header 2 dataRows
        (⟨db.assetTypes, db.assets, db.batches ++ [⟨batchFilename file fn, 0⟩]⟩,
         initCache db.assetTypes, emptyResults)).2.2.updated
      = 0 + 0 + dataRows.countP
        (fun cells => (rowError? (mkCtx (mergeMapping cm)) (mkRow header cells)).isNone) :=
    (processRows_spec (mkCtx (mergeMapping cm)) db.batches.length header
      dataRows 2 ⟨db.assetTypes, db.assets, db.batches ++ [⟨batchFilename file fn, 0⟩]⟩
      (initCache db.assetTypes) emptyResults).2.1
  have hbat := (processRows_spec (mkCtx (mergeMapping cm)) db.batches.length header
    dataRows 2 ⟨db.assetTypes, db.assets, db.batches ++ [⟨batchFilename file fn, 0⟩]⟩
    (initCache db.assetTypes) emptyResults).2.2
  have hassets := processRows_assets_of_errors (mkCtx (mergeMapping cm))
    db.batches.length header dataRows 2
    ⟨db.assetTypes, db.assets, db.batches ++ [⟨batchFilename file fn, 0⟩]⟩
    (initCache db.assetTypes) emptyResults hbad
  have hzero : dataRows.countP
      (fun cells => (rowError? (mkCtx (mergeMapping cm)) (mkRow header cells)).isNone)
      = 0 := by
    rw [List.countP_eq_zero]
    intro a ha
    cases hx : rowError? (mkCtx (mergeMapping cm)) (mkRow header a) with
    | none =>
        have := hbad a ha
        rw [hx] at this
        simp at this
    | some e => simp
  have hall : dataRows.countP
      (fun cells => (rowError? (mkCtx (mergeMapping cm)) (mkRow header cells)).isSome)
      = dataRows.length := by
    rw [List.countP_eq_length]
    exact hbad
  rw [hzero] at h2
  have hcreated : (processRows (mkCtx (mergeMapping cm)) db.batches.length header 2 dataRows
      (⟨db.assetTypes, db.assets, db.batches ++ [⟨batchFilename file fn, 0⟩]⟩,
       initCache db.assetTypes, emptyResults)).2.2.created = 0 := by omega
  have hupdated : (processRows (mkCtx (mergeMapping cm)) db.batches.length header 2 dataRows
      (⟨db.assetTypes, db.assets, db.batches ++ [⟨batchFilename file fn, 0⟩]⟩,
       initCache db.assetTypes, emptyResults)).2.2.updated = 0 := by omega
  refine ⟨_, _, rfl, hcreated, hupdated, ?_, hassets, ?_⟩
  · rw [h1]
    simp [emptyResults, rowErrorsFrom_length, hall]
  · rw [hcreated, hupdated]
    show (processRows (mkCtx (mergeMapping cm)) db.batches.length header 2 dataRows
        (⟨db.assetTypes, db.assets, db.batches ++ [⟨batchFilename file fn, 0⟩]⟩,
         initCache db.assetTypes, emptyResults)).1.batches.set db.batches.length _ = _
    rw [hbat]
    exact set_append_last db.batches _ _

/-- Witness for C9: a file whose single data row has an empty asset id
still commits a zero-count batch, records one error, writes no asset. -/
theorem c9_witness :
    ∃ res db',
      importCsv ⟨[], [], []⟩
          ⟨"w.csv", [["asset_id", "asset_type", "x", "y"], ["", "T", "1", "2"]]⟩ [] none
        = .ok (res, db')
      ∧ res.created = 0 ∧ res.updated = 0
      ∧ res.errors.length = 1
      ∧ db'.assets = ([] : List AssetRec)
      ∧ db'.batches = ([] : List BatchRec)
          ++ [⟨batchFilename ⟨"w.csv", [["asset_id", "asset_type", "x", "y"],
                ["", "T", "1", "2"]]⟩ none, 0⟩] :=
  c9_all_rows_failing_still_commits_batch ⟨[], [], []⟩
    ⟨"w.csv", [["asset_id", "asset_type", "x", "y"], ["", "T", "1", "2"]]⟩ [] none
    ["asset_id", "asset_type", "x", "y"] [["", "T", "1", "2"]]
    rfl (by rfl) (by decide)

/-- C7: both validators check the size ceiling first — any file above the
default ceiling (50 MB for PDFs, 5 MB for images) is rejected with the
size validation error whatever its name, content or the python-magic
configuration; a file at or below the ceiling never fails the size check
(it can only fail the later extension/content checks). -/
theorem c7_size_ceiling_enforced (magic : MagicOracle) (f : UploadedFile) :
    (f.size > pdfMaxSize → pdfValidate magic pdfMaxSize f = .error .sizeExceeded)
    ∧ (f.size > imageMaxSize → imageValidate magic imageMaxSize f = .error .sizeExceeded)
    ∧ (f.size ≤ pdfMaxSize → pdfValidate magic pdfMaxSize f ≠ .error .sizeExceeded)
    ∧ (f.size ≤ imageMaxSize → imageValidate magic imageMaxSize f ≠ .error .sizeExceeded) := by
  refine ⟨?_, ?_, ?_, ?_⟩
  · intro h
    unfold pdfValidate
    rw [if_pos h]
  · intro h
    unfold imageValidate
    rw [if_pos h]
  · intro h
    unfold pdfValidate
    rw [if_neg (by omega)]
    by_cases he : ".pdf".data.isSuffixOf (strLower f.name).data = true
    case neg => rw [if_pos he]; simp
    case pos =>
      rw [if_neg (not_not_intro he)]
      by_cases hh : pdfMagic.isPrefixOf (f.content.take 2048) = true
      case neg => rw [if_pos hh]; simp
      case pos =>
        rw [if_neg (not_not_intro hh)]
        rcases magic with _ | g
        · simp
        · dsimp only
          rcases hg : g (f.content.take 2048) with _ | m
          · simp
          · dsimp only
            split_ifs <;> simp
  · intro h
    unfold imageValidate
    rw [if_neg (by omega)]
    by_cases he : allowedImageExtensions.contains (fileExt f.name) = true
    case neg => rw [if_pos he]; simp
    case pos =>
      rw [if_neg (not_not_intro he)]
      have hfb : imageFallback (f.content.take 2048) ≠ Except.error VError.sizeExceeded := by
        unfold imageFallback
        dsimp only
        split_ifs <;> simp
      rcases magic with _ | g
      · dsimp only
        exact hfb
      · dsimp only
        rcases hg : g (f.content.take 2048) with _ | m
        · dsimp only
          exact hfb
        · dsimp only
          split_ifs <;> simp

/-- Witness for C7: an oversized PDF and image are rejected on size; a
small file never trips the size check. -/
theorem c7_witness :
    pdfValidate none pdfMaxSize ⟨"a.pdf", 50 * 1024 * 1024 + 1, []⟩
        = .error .sizeExceeded
    ∧ imageValidate none imageMaxSize ⟨"a.png", 5 * 1024 * 1024 + 1, []⟩
        = .error .sizeExceeded
    ∧ pdfValidate none pdfMaxSize ⟨"a.pdf", 10, []⟩ ≠ .error .sizeExceeded
    ∧ imageValidate none imageMaxSize ⟨"a.png", 10, []⟩ ≠ .error .sizeExceeded :=
  ⟨(c7_size_ceiling_enforced none ⟨"a.pdf", 50 * 1024 * 1024 + 1, []⟩).1 (by decide),
   (c7_size_ceiling_enforced none ⟨"a.png", 5 * 1024 * 1024 + 1, []⟩).2.1 (by decide),
   (c7_size_ceiling_enforced none ⟨"a.pdf", 10, []⟩).2.2.1 (by decide),
   (c7_size_ceiling_enforced none ⟨"a.png", 10, []⟩).2.2.2 (by decide)⟩

/-- C10: with python-magic unavailable, any in-size file named `*.webp`
whose content actually is WEBP (a RIFF container, header starting with
`RIFF`) is rejected by the fallback content check, even though `.webp` is
an allowed extension: the fallback accepts only PNG, JPEG and GIF
signatures. -/
theorem c10_webp_rejected_without_magic (f : UploadedFile)
    (hext : fileExt f.name = ".webp")
    (hsize : f.size ≤ imageMaxSize)
    (hriff : List.isPrefixOf [0x52, 0x49, 0x46, 0x46] (f.content.take 2048) = true) :
    allowedImageExtensions.contains ".webp" = true
    ∧ imageValidate none imageMaxSize f = .error .badContent := by
  refine ⟨by decide, ?_⟩
  unfold imageValidate
  rw [if_neg (by omega)]
  rw [hext]
  rw [if_neg (by decide)]
  obtain ⟨t, ht⟩ := List.isPrefixOf_iff_prefix.mp hriff
  unfold imageFallback
  rw [← ht]
  simp [List.isPrefixOf]

/-- Witness for C10: a concrete well-formed 12-byte WEBP file named
`img.webp` fails validation when magic is unavailable. -/
theorem c10_witness :
    allowedImageExtensions.contains ".webp" = true
    ∧ imageValidate none imageMaxSize
        ⟨"img.webp", 12,
         [0x52, 0x49, 0x46, 0x46, 0x04, 0x00, 0x00, 0x00, 0x57, 0x45, 0x42, 0x50]⟩
        = .error .badContent :=
  c10_webp_rejected_without_magic
    ⟨"img.webp", 12,
     [0x52, 0x49, 0x46, 0x46, 0x04, 0x00, 0x00, 0x00, 0x57, 0x45, 0x42, 0x50]⟩
    (by rfl) (by decide) (by rfl)

/-- C5: importing a CSV of valid rows with pairwise-distinct asset ids,
none of which exists in the project yet, yields `created = N, updated = 0`
and adds exactly N assets; importing the same file again into the
resulting state yields `created = 0, updated = N` — every upsert hits the
existing `(project, asset_id)` key and updates in place — and the final
asset count is unchanged. -/
theorem c5_reimport_updates_in_place (db : DB) (file : CsvFile)
    (cm : List (String × String)) (fn : Option String)
    (header : List String) (dataRows : List (List String))
    (hf : file.lines = header :: dataRows)
    (hcols : missingCols (mergeMapping cm) header = [])
    (hval : ∀ cells ∈ dataRows,
      rowError? (mkCtx (mergeMapping cm)) (mkRow header cells) = none)
    (hnd : (dataRows.map (fun cells =>
      rowId (mkCtx (mergeMapping cm)) (mkRow header cells))).Nodup)
    (hfresh : ∀ cells ∈ dataRows,
      hasAsset db.assets (rowId (mkCtx (mergeMapping cm)) (mkRow header cells)) = false) :
    ∃ res₁ db₁ res₂ db₂,
      importCsv db file cm fn = .ok (res₁, db₁)
      ∧ res₁.created = dataRows.length ∧ res₁.updated = 0
      ∧ db₁.assets.length = db.assets.length + dataRows.length
      ∧ importCsv db₁ file cm fn = .ok (res₂, db₂)
      ∧ res₂.created = 0 ∧ res₂.updated = dataRows.length
      ∧ db₂.assets.length = db₁.assets.length := by
  have hrun1 := importCsv_eq_ok db file cm fn header dataRows hf hcols
  have h1 : (importState db file cm fn header dataRows).2.2.created
        = emptyResults.created + dataRows.length
      ∧ (importState db file cm fn header dataRows).2.2.updated = emptyResults.updated
      ∧ (importState db file cm fn header dataRows).1.assets.map (fun a => a.assetId)
        = db.assets.map (fun a => a.assetId)
          ++ dataRows.map (fun cells =>
              rowId (mkCtx (mergeMapping cm)) (mkRow header cells)) :=
    processRows_all_new (mkCtx (mergeMapping cm)) db.batches.length header dataRows 2
      ⟨db.assetTypes, db.assets, db.batches ++ [⟨batchFilename file fn, 0⟩]⟩
      (initCache db.assetTypes) emptyResults hval hnd hfresh
  have hlen1 : (importState db file cm fn header dataRows).1.assets.length
      = db.assets.length + dataRows.length := by
    have := congrArg List.length h1.2.2
    simpa using this
  have hhits : ∀ cells ∈ dataRows,
      hasAsset (importState db file cm fn header dataRows).1.assets
        (rowId (mkCtx (mergeMapping cm)) (mkRow header cells)) = true := by
    intro r hr
    apply (hasAsset_eq_mem _ _).mpr
    rw [h1.2.2]
    exact List.mem_append.mpr (Or.inr (List.mem_map.mpr ⟨r, hr, rfl⟩))
  have hrun2 := importCsv_eq_ok
    { (importState db file cm fn header dataRows).1 with
      batches := (importState db file cm fn header dataRows).1.batches.set
        db.batches.length
        ⟨batchFilename file fn,
         (importState db file cm fn header dataRows).2.2.created
           + (importState db file cm fn header dataRows).2.2.updated⟩ }
    file cm fn header dataRows hf hcols
  have h2 : (importState
        { (importState db file cm fn header dataRows).1 with
          batches := (importState db file cm fn header dataRows).1.batches.set
            db.batches.length
            ⟨batchFilename file fn,
             (importState db file cm fn header dataRows).2.2.created
               + (importState db file cm fn header dataRows).2.2.updated⟩ }
        file cm fn header dataRows).2.2.created = emptyResults.created
      ∧ (importState
        { (importState db file cm fn header dataRows).1 with
          batches := (importState db file cm fn header dataRows).1.batches.set
            db.batches.length
            ⟨batchFilename file fn,
             (importState db file cm fn header dataRows).2.2.created
               + (importState db file cm fn header dataRows).2.2.updated⟩ }
        file cm fn header dataRows).2.2.updated
        = emptyResults.updated + dataRows.length
      ∧ (importState
        { (importState db file cm fn header dataRows).1 with
          batches := (importState db file cm fn header dataRows).1.batches.set
            db.batches.length
            ⟨batchFilename file fn,
             (importState db file cm fn header dataRows).2.2.created
               + (importState db file cm fn header dataRows).2.2.updated⟩ }
        file cm fn header dataRows).1.assets.map (fun a => a.assetId)
        = (importState db file cm fn header dataRows).1.assets.map
            (fun a => a.assetId) :=
    processRows_all_existing (mkCtx (mergeMapping cm)) _ header dataRows 2
      _ (initCache _) emptyResults hval hhits
  have hlen2 := congrArg List.length h2.2.2
  simp only [List.length_map] at hlen2
  refine ⟨_, _, _, _, hrun1, ?_, ?_, ?_, hrun2, ?_, ?_, ?_⟩
  · simpa [emptyResults] using h1.1
  · simpa [emptyResults] using h1.2.1
  · simpa using hlen1
  · simpa [emptyResults] using h2.1
  · simpa [emptyResults] using h2.2.1
  · simpa using hlen2

/-- Witness for C5: the two-row file is imported twice — created 2 then
updated 2, count stable. -/
theorem c5_witness :
    ∃ res₁ db₁ res₂ db₂,
      importCsv ⟨[], [], []⟩
          ⟨"w.csv", [["asset_id", "asset_type", "x", "y"],
                     ["A1", "T", "1", "2"], ["A2", "T", "3", "4"]]⟩ [] none
        = .ok (res₁, db₁)
      ∧ res₁.created = 2 ∧ res₁.updated = 0
      ∧ db₁.assets.length = 2
      ∧ importCsv db₁
          ⟨"w.csv", [["asset_id", "asset_type", "x", "y"],
                     ["A1", "T", "1", "2"], ["A2", "T", "3", "4"]]⟩ [] none
        = .ok (res₂, db₂)
      ∧ res₂.created = 0 ∧ res₂.updated = 2
      ∧ db₂.assets.length = db₁.assets.length :=
  c5_reimport_updates_in_place ⟨[], [], []⟩
    ⟨"w.csv", [["asset_id", "asset_type", "x", "y"],
               ["A1", "T", "1", "2"], ["A2", "T", "3", "4"]]⟩ [] none
    ["asset_id", "asset_type", "x", "y"]
    [["A1", "T", "1", "2"], ["A2", "T", "3", "4"]]
    rfl (by rfl) (by decide) (by decide) (by decide)

/-- C8: two valid data rows with the same asset id in one call — the id
not yet present — yield `created = 1, updated = 1`, exactly one asset for
that id afterwards, and that asset's name, coordinates, metadata and
(case-insensitively resolved) type all come from the second row. -/
theorem c8_duplicate_id_in_file_last_row_wins (db : DB) (file : CsvFile)
    (cm : List (String × String)) (fn : Option String)
    (header cellsA cellsB : List String)
    (aid aty xs ys nm : String) (x y : PyFloat)
    (hf : file.lines = [header, cellsA, cellsB])
    (hcols : missingCols (mergeMapping cm) header = [])
    (hvalA : rowError? (mkCtx (mergeMapping cm)) (mkRow header cellsA) = none)
    (hidA : rowId (mkCtx (mergeMapping cm)) (mkRow header cellsA) = aid)
    (hfB : rowFields (mkCtx (mergeMapping cm)) (mkRow header cellsB)
      = some (aid, aty, xs, ys))
    (haB : aid ≠ "") (htB : aty ≠ "")
    (hxB : pyFloat? xs = some x) (hyB : pyFloat? ys = some y)
    (hnB : nameField (mkCtx (mergeMapping cm)) (mkRow header cellsB) = some nm)
    (hfresh : hasAsset db.assets aid = false) :
    ∃ res db' ty,
      importCsv db file cm fn = .ok (res, db')
      ∧ res.created = 1 ∧ res.updated = 1
      ∧ db'.assets = db.assets
          ++ [⟨aid, ty, nm, x, y,
               rowMetadata (mkCtx (mergeMapping cm)) (mkRow header cellsB),
               db.batches.length⟩]
      ∧ strLower ty = strLower aty
      ∧ (db'.assets.filter (fun a => a.assetId = aid)).length = 1 := by
  obtain ⟨aidA, atyA, xsA, ysA, xA, yA, nmA, hfa, haa, hta, hxa, hya, hna, hida⟩ :=
    rowError?_none_elim (mkCtx (mergeMapping cm)) (mkRow header cellsA) hvalA
  have haidA : aidA = aid := by rw [← hida, hidA]
  rw [haidA] at hfa haa hida
  have hrun := importCsv_eq_ok db file cm fn header [cellsA, cellsB] hf hcols
  -- row A creates
  rcases hPA : processRow (mkCtx (mergeMapping cm)) db.batches.length
      (⟨db.assetTypes, db.assets, db.batches ++ [⟨batchFilename file fn, 0⟩]⟩,
       initCache db.assetTypes, emptyResults) 2 (mkRow header cellsA)
    with ⟨dbA, cA, resA⟩
  obtain ⟨hassetsA, hcreatedA, hupdatedA, hcacheA⟩ := processRow_new_parts
    (mkCtx (mergeMapping cm)) db.batches.length
    ⟨db.assetTypes, db.assets, db.batches ++ [⟨batchFilename file fn, 0⟩]⟩
    (initCache db.assetTypes) emptyResults 2 (mkRow header cellsA)
    aid atyA xsA ysA nmA xA yA hfa haa hta hxa hya hna hfresh
  rw [hPA] at hassetsA hcreatedA hupdatedA hcacheA
  dsimp only at hassetsA hcreatedA hupdatedA hcacheA
  -- row B hits the id created by row A
  have hhitB : hasAsset dbA.assets aid = true := by
    rw [hassetsA, hasAsset_append_single]
    simp
  have huoc : updateOrCreate dbA.assets aid
      ⟨aid, (resolveType dbA cA aty).2.2, nm, x, y,
       rowMetadata (mkCtx (mergeMapping cm)) (mkRow header cellsB),
       db.batches.length⟩
      = (dbA.assets.map (fun r =>
          if r.assetId = aid then
            ⟨aid, (resolveType dbA cA aty).2.2, nm, x, y,
             rowMetadata (mkCtx (mergeMapping cm)) (mkRow header cellsB),
             db.batches.length⟩
          else r), false) := by
    simp [updateOrCreate, hhitB]
  have hmapB : dbA.assets.map (fun r =>
      if r.assetId = aid then
        (⟨aid, (resolveType dbA cA aty).2.2, nm, x, y,
          rowMetadata (mkCtx (mergeMapping cm)) (mkRow header cellsB),
          db.batches.length⟩ : AssetRec)
      else r)
      = db.assets ++ [⟨aid, (resolveType dbA cA aty).2.2, nm, x, y,
          rowMetadata (mkCtx (mergeMapping cm)) (mkRow header cellsB),
          db.batches.length⟩] := by
    rw [hassetsA]
    exact map_replace_append db.assets aid _ _ hfresh rfl
  have hB := processRow_success (mkCtx (mergeMapping cm)) db.batches.length dbA cA resA
    3 (mkRow header cellsB) aid aty xs ys nm x y hfB haB htB hxB hyB hnB
  rw [huoc] at hB
  simp only [hmapB] at hB
  -- the whole loop output
  have hS : importState db file cm fn header [cellsA, cellsB]
      = processRow (mkCtx (mergeMapping cm)) db.batches.length (dbA, cA, resA) 3
          (mkRow header cellsB) := by
    show processRows (mkCtx (mergeMapping cm)) db.batches.length header 2
        [cellsA, cellsB]
        (⟨db.assetTypes, db.assets, db.batches ++ [⟨batchFilename file fn, 0⟩]⟩,
         initCache db.assetTypes, emptyResults)
      = _
    simp only [processRows, hPA]
  rw [hB] at hS
  -- cache invariant for the case-insensitive type name
  have hinvA : CacheInv cA := by
    rw [hcacheA]
    exact resolveType_cacheInv _ _ _ (initCache_cacheInv db.assetTypes)
  have hty : strLower (resolveType dbA cA aty).2.2 = strLower aty :=
    resolveType_lower dbA cA aty hinvA
  refine ⟨(importState db file cm fn header [cellsA, cellsB]).2.2,
    _, (resolveType dbA cA aty).2.2, hrun, ?_, ?_, ?_, hty, ?_⟩
  · rw [hS]
    simp only [emptyResults] at hcreatedA
    simp [hcreatedA]
  · rw [hS]
    simp only [emptyResults] at hupdatedA
    simp [hupdatedA]
  · show (importState db file cm fn header [cellsA, cellsB]).1.assets = _
    rw [hS]
  · show ((importState db file cm fn header [cellsA, cellsB]).1.assets.filter
        (fun a => a.assetId = aid)).length = 1
    rw [hS]
    dsimp only
    rw [List.filter_append]
    have hnil : db.assets.filter (fun a => decide (a.assetId = aid)) = [] := by
      rw [List.filter_eq_nil_iff]
      intro a ha heq
      have : hasAsset db.assets aid = true :=
        (hasAsset_eq_mem db.assets aid).mpr
          (List.mem_map.mpr ⟨a, ha, by simpa using heq⟩)
      rw [hfresh] at this
      exact Bool.false_ne_true this
    rw [hnil]
    simp

/-- Witness for C8: two rows for id `D1` in one file — the type is typed
differently by case in the second row and resolves to the first spelling;
the stored asset carries the second row's data. -/
theorem c8_witness :
    ∃ res db' ty,
      importCsv ⟨[], [], []⟩
          ⟨"w.csv", [["asset_id", "asset_type", "x", "y", "name"],
                     ["D1", "TypeA", "1", "2", "first"],
                     ["D1", "typea", "3", "4", "second"]]⟩ [] none
        = .ok (res, db')
      ∧ res.created = 1 ∧ res.updated = 1
      ∧ db'.assets = ([] : List AssetRec)
          ++ [⟨"D1", ty, "second", .finite 3, .finite 4,
               rowMetadata (mkCtx (mergeMapping []))
                 (mkRow ["asset_id", "asset_type", "x", "y", "name"]
                   ["D1", "typea", "3", "4", "second"]),
               0⟩]
      ∧ strLower ty = strLower "typea"
      ∧ ((db'.assets.filter (fun a => a.assetId = "D1")).length = 1) :=
  c8_duplicate_id_in_file_last_row_wins ⟨[], [], []⟩
    ⟨"w.csv", [["asset_id", "asset_type", "x", "y", "name"],
               ["D1", "TypeA", "1", "2", "first"],
               ["D1", "typea", "3", "4", "second"]]⟩ [] none
    ["asset_id", "asset_type", "x", "y", "name"]
    ["D1", "TypeA", "1", "2", "first"] ["D1", "typea", "3", "4", "second"]
    "D1" "typea" "3" "4" "second" (.finite 3) (.finite 4)
    rfl (by rfl) (by decide) (by rfl) (by rfl) (by decide) (by decide)
    (by rfl) (by rfl) (by rfl) (by rfl)

end NitroPdf
